import Mathlib

/-
Verification of the upload-queue component in
src/src/app/data-upload/data-upload.component.ts.

Modelling conventions:
- A JS File object is a FileData record carrying the two fields the code
  reads: name and byte size.
- A queued record (interface UploadedFile in the source) additionally
  carries an identity field oid which models JS object identity: the
  component mutates records through captured object references, and the
  callbacks installed by uploadFile close over the record object itself.
  An assignment through such a reference is modelled as an update of the
  queue entry carrying the same identity; entries with other identities
  are untouched, and when the referenced record is no longer in the queue
  the queue is unchanged (the detached object is mutated invisibly).
- JS string lowercasing and suffix tests are modelled structurally on the
  character list so that concrete instances evaluate in the kernel.
- The setTimeout calls made by showAlert are modelled by a list of
  pending fire times together with the current time now; advanceTo moves
  the clock forward and runs every due timer callback. All alert timer
  callbacks are identical (they clear the alert), so running the due ones
  as a batch is order independent.
- Fallible index accesses (reading a property of undefined throws a
  TypeError in JS) are modelled by an Option result, none meaning the
  call faults.
-/

/-- Metadata of a JS File object: the two fields the component reads. -/
structure FileData where
  name : String
  size : Nat
deriving DecidableEq

/-- Per-record lifecycle status, the string union in the source. -/
inductive Status where
  | pending
  | uploading
  | success
  | error
deriving DecidableEq

/-- Alert kind, the string union accepted by showAlert. -/
inductive AlertKind where
  | success
  | error
  | info
deriving DecidableEq

/-- String form of an alert kind, as interpolated into alertType. -/
def AlertKind.str : AlertKind → String
  | .success => "success"
  | .error => "error"
  | .info => "info"

/-- One queued record (interface UploadedFile in the source), plus the
identity field oid modelling JS object identity. -/
structure UploadedFile where
  oid : Nat
  file : FileData
  progress : Nat
  status : Status
  error : Option String
deriving DecidableEq

/-- Component state: the fields of DataUploadComponent that the verified
operations read or write, plus the timer model (now, timers) and the
fresh-identity counter nextId. -/
structure State where
  queue : List UploadedFile
  nextId : Nat
  isUploading : Bool
  alertMessage : String
  alertType : String
  timers : List Nat
  now : Nat
deriving DecidableEq

/-- Initial component state: field initializers of the source class. -/
def initialState : State :=
  { queue := [], nextId := 0, isUploading := false,
    alertMessage := "", alertType := "", timers := [], now := 0 }

/-- ASCII lowercasing of one character, as toLowerCase acts on the
characters relevant to the extension check. -/
def lowerChar (c : Char) : Char :=
  if 65 ≤ c.toNat ∧ c.toNat ≤ 90 then Char.ofNat (c.toNat + 32) else c

/-- Structural model of String.prototype.toLowerCase. -/
def toLowerStr (s : String) : String :=
  String.mk (s.data.map lowerChar)

/-- Structural model of String.prototype.endsWith. -/
def endsWithStr (s suffix : String) : Bool :=
  suffix.data.reverse.isPrefixOf s.data.reverse

/-- Embeds isValidFile: extension whitelist and size bound. -/
def isValidFile (file : FileData) : Bool :=
  let validExtensions := [".xml", ".dat", ".nrs"]
  let maxSize := 200 * 1024 * 1024
  let hasValidExtension :=
    validExtensions.any (fun ext => endsWithStr (toLowerStr file.name) ext)
  hasValidExtension && decide (file.size ≤ maxSize)

/-- Embeds showAlert: sets the alert fields and schedules one timeout of
5000 ms that will clear them; earlier timeouts are not cancelled. -/
def showAlert (s : State) (message : String) (type : AlertKind) : State :=
  { s with alertMessage := message,
           alertType := "alert-" ++ type.str,
           timers := s.timers ++ [s.now + 5000] }

/-- Advances the clock to time t and runs every due timer callback; each
alert timer callback clears alertMessage and alertType. -/
def advanceTo (s : State) (t : Nat) : State :=
  { s with now := t,
           alertMessage := if s.timers.any (fun ft => decide (ft ≤ t))
                           then "" else s.alertMessage,
           alertType := if s.timers.any (fun ft => decide (ft ≤ t))
                        then "" else s.alertType,
           timers := s.timers.filter (fun ft => decide (t < ft)) }

/-- Embeds one push in the forEach of addFiles, allocating a fresh
identity for the new record object. -/
def pushFile (s : State) (file : FileData) : State :=
  { s with queue := s.queue ++
             [{ oid := s.nextId, file := file, progress := 0,
                status := Status.pending, error := none }],
           nextId := s.nextId + 1 }

/-- Embeds addFiles: filter through isValidFile, aggregate alert when
some candidate was dropped, then append the accepted ones in order. -/
def addFiles (s : State) (files : List FileData) : State :=
  let validFiles := files.filter isValidFile
  let s1 := if validFiles.length ≠ files.length
            then showAlert s ("Some files were skipped due to invalid format or size")
                   AlertKind.error
            else s
  validFiles.foldl pushFile s1

/-- Updates the queue entry whose identity is j by f; entries with other
identities are untouched. This is how an assignment through a captured JS
object reference acts on the queue. -/
def updateById (q : List UploadedFile) (j : Nat) (f : UploadedFile → UploadedFile) :
    List UploadedFile :=
  q.map (fun r => if r.oid = j then f r else r)

/-- Embeds the synchronous part of uploadFile: reads the record at index
(a fault, modelled none, when the index is out of bounds), returns with
no request when it is already uploading, otherwise marks it uploading,
raises the global flag and issues the request. The Bool is true exactly
when an HTTP request was submitted. -/
def uploadFileStart (s : State) (index : Int) : Option (State × Bool) :=
  if h : 0 ≤ index ∧ index.toNat < s.queue.length then
    let fileItem := s.queue.get ⟨index.toNat, h.2⟩
    if fileItem.status = Status.uploading then
      some (s, false)
    else
      some ({ s with
                queue := s.queue.set index.toNat
                  { fileItem with status := Status.uploading },
                isUploading := true }, true)
  else
    none

/-- Model of Math.round for a nonnegative ratio num / den with den positive:
halves round up, as Math.round rounds half toward positive infinity. -/
def jsRound (num den : Nat) : Nat :=
  (2 * num + den) / (2 * den)

/-- Model of the JS expression x or-else d on numbers: undefined and 0 are
falsy, so both select the default. -/
def jsOrNat (x : Option Nat) (d : Nat) : Nat :=
  match x with
  | none => d
  | some n => if n = 0 then d else n

/-- Model of the JS expression m or-else d on strings: undefined and the
empty string are falsy, so both select the default. -/
def jsOrString (m : Option String) (d : String) : String :=
  match m with
  | none => d
  | some t => if t = "" then d else t

/-- Embeds the UploadProgress branch of the next callback, acting through
the captured record reference ref: the referenced record gets progress
Math.round(100 * loaded / (total or-else 1)). -/
def fireProgress (s : State) (ref : UploadedFile) (loaded : Nat)
    (total : Option Nat) : State :=
  let progress := jsRound (100 * loaded) (jsOrNat total 1)
  { s with queue := updateById s.queue ref.oid
             (fun r => { r with progress := progress }) }

/-- Embeds the Response branch of the next callback: the referenced record
becomes success with progress 100, the global flag drops, and a success
alert naming the file is shown. -/
def fireResponse (s : State) (ref : UploadedFile) : State :=
  let s1 := { s with
                queue := updateById s.queue ref.oid
                  (fun r => { r with status := Status.success, progress := 100 }),
                isUploading := false }
  showAlert s1 ("File " ++ ref.file.name ++ " uploaded successfully!")
    AlertKind.success

/-- Embeds the error callback: the referenced record becomes error with the
transport message or-else the fallback, the global flag drops, and an error
alert naming the file and the resolved message is shown. -/
def fireError (s : State) (ref : UploadedFile) (msg : Option String) : State :=
  let errMsg := jsOrString msg ("Upload failed")
  let s1 := { s with
                queue := updateById s.queue ref.oid
                  (fun r => { r with status := Status.error, error := some errMsg }),
                isUploading := false }
  showAlert s1 ("Failed to upload " ++ ref.file.name ++ ": " ++ errMsg)
    AlertKind.error

/-- Embeds removeFile: splice(index, 1) drops the record at index and is a
no-op on an out-of-range nonnegative index. -/
def removeFile (s : State) (index : Nat) : State :=
  { s with queue := s.queue.eraseIdx index }

/-- Embeds hasPendingFiles. -/
def hasPendingFiles (s : State) : Bool :=
  s.queue.any (fun f => decide (f.status = Status.pending))

/-- Identity-based Array.prototype.findIndex over the queue, as the strict
equality f === pendingFiles[index] compares object identities; minus one
when no entry matches. -/
def jsFindIndexRef (q : List UploadedFile) (j : Nat) : Int :=
  match q.findIdx? (fun r => decide (r.oid = j)) with
  | some i => (i : Int)
  | none => -1

/-- One iteration of the forEach in uploadAllFiles: find the current index
of the snapshotted record by identity and call uploadFile there, counting
submitted requests; a faulting uploadFile call propagates as none. -/
def uploadStep (acc : State × Nat) (j : Nat) : Option (State × Nat) :=
  (uploadFileStart acc.1 (jsFindIndexRef acc.1.queue j)).map
    (fun r => (r.1, acc.2 + (if r.2 then 1 else 0)))

/-- Embeds uploadAllFiles: snapshot the pending records, then for each one
look up its current index by identity and call uploadFile there. The Nat
accumulates how many HTTP requests were submitted. -/
def uploadAllFiles (s : State) : Option (State × Nat) :=
  let pendingIds :=
    (s.queue.filter (fun f => decide (f.status = Status.pending))).map
      (fun f => f.oid)
  pendingIds.foldlM uploadStep (s, 0)

/-- Records created by the forEach push of addFiles, with identities
allocated from n upward. -/
def mkRecs (n : Nat) : List FileData → List UploadedFile
  | [] => []
  | f :: fs => { oid := n, file := f, progress := 0,
                 status := Status.pending, error := none } :: mkRecs (n + 1) fs

/-- Demo file accepted by the validator. -/
def fileAxml : FileData := { name := "a.xml", size := 10 }

/-- Demo file rejected by the validator. -/
def fileBexe : FileData := { name := "b.exe", size := 10 }

/-- Demo state holding one pending record, built by the operations. -/
def demoQueued : State := addFiles initialState [fileAxml]

/-- Demo state after uploadFile(0) on demoQueued: the record is uploading. -/
def demoStarted : State :=
  ((uploadFileStart demoQueued 0).getD (demoQueued, false)).1

/-- The object reference captured by the uploadFile closure over the record
of demoStarted: identity 0, file fileAxml; only those two fields are read
by the callbacks. -/
def demoRef : UploadedFile :=
  { oid := 0, file := fileAxml, progress := 0,
    status := Status.uploading, error := none }

/-- Record produced by the success event on the demo state. -/
def succRec : UploadedFile :=
  { oid := 0, file := fileAxml, progress := 100,
    status := Status.success, error := none }

/-- Record produced by a message-less error event on the demo state. -/
def errRec : UploadedFile :=
  { oid := 0, file := fileAxml, progress := 0,
    status := Status.error, error := some ("Upload failed") }

/-- Demo state with one alert shown at time 0; its timer is due at 5000. -/
def alertFirst : State := showAlert initialState ("first message") AlertKind.error

/-- Demo state where a second alert supersedes the first at time 3000; the
timer of the first alert is still pending. -/
def alertSecond : State :=
  showAlert (advanceTo alertFirst 3000) ("second message") AlertKind.error

/-- Demo state with two queued records of distinct identities. -/
def demoTwo : State := addFiles initialState [fileAxml, { name := "b.dat", size := 20 }]

/-- Demo state with one pending and one already uploading record. -/
def demoMixed : State :=
  (addFiles demoStarted [{ name := "c.nrs", size := 30 }])

/-- Claim C1: isValidFile accepts exactly the files whose lowercased name
ends with .xml, .dat or .nrs and whose size is at most 209715200 bytes,
the 200 MiB boundary being inclusive. -/
theorem isValidFile_iff (f : FileData) :
    isValidFile f = true ↔
      ((endsWithStr (toLowerStr f.name) (".xml") = true
        ∨ endsWithStr (toLowerStr f.name) (".dat") = true
        ∨ endsWithStr (toLowerStr f.name) (".nrs") = true)
       ∧ f.size ≤ 209715200) := by
  simp [isValidFile, List.any, Bool.or_eq_true, decide_eq_true_iff]

theorem foldl_pushFile (l : List FileData) (s : State) :
    l.foldl pushFile s =
      { s with queue := s.queue ++ mkRecs s.nextId l,
               nextId := s.nextId + l.length } := by
  induction l generalizing s with
  | nil => simp [mkRecs]
  | cons f fs ih =>
      simp only [List.foldl_cons, ih, pushFile, mkRecs, List.length_cons]
      simp [List.append_assoc]
      omega

theorem mkRecs_map_proj (n : Nat) (l : List FileData) :
    (mkRecs n l).map (fun r => (r.file, r.progress, r.status)) =
      l.map (fun f => (f, 0, Status.pending)) := by
  induction l generalizing n with
  | nil => simp [mkRecs]
  | cons f fs ih => simp [mkRecs, ih]

/-- Claim C3: addFiles appends exactly the isValidFile-accepted candidates
to the end of the queue, in input order, each pending with progress 0,
with no de-duplication against the existing queue, and raises a single
aggregate error alert exactly when some candidate was rejected. -/
theorem addFiles_spec (s : State) (files : List FileData) :
    ((addFiles s files).queue.map (fun r => (r.file, r.progress, r.status)) =
        s.queue.map (fun r => (r.file, r.progress, r.status))
          ++ (files.filter isValidFile).map (fun f => (f, 0, Status.pending)))
    ∧ ((files.filter isValidFile).length ≠ files.length →
        (addFiles s files).alertMessage =
            "Some files were skipped due to invalid format or size"
        ∧ (addFiles s files).alertType = "alert-error"
        ∧ (addFiles s files).timers = s.timers ++ [s.now + 5000])
    ∧ ((files.filter isValidFile).length = files.length →
        (addFiles s files).alertMessage = s.alertMessage
        ∧ (addFiles s files).alertType = s.alertType
        ∧ (addFiles s files).timers = s.timers) := by
  by_cases hc : (files.filter isValidFile).length = files.length
  · simp [addFiles, hc, foldl_pushFile, mkRecs_map_proj]
  · simp [addFiles, hc, foldl_pushFile, showAlert, mkRecs_map_proj, AlertKind.str]

theorem addFiles_spec_witness :
    ([fileAxml, fileBexe].filter isValidFile).length ≠ [fileAxml, fileBexe].length
    ∧ ((addFiles initialState [fileAxml, fileBexe]).alertMessage =
          "Some files were skipped due to invalid format or size"
        ∧ (addFiles initialState [fileAxml, fileBexe]).alertType = "alert-error"
        ∧ (addFiles initialState [fileAxml, fileBexe]).timers =
            initialState.timers ++ [initialState.now + 5000]) :=
  ⟨by decide, (addFiles_spec initialState [fileAxml, fileBexe]).2.1 (by decide)⟩

/-- Claim C2 counterexample: start an upload of a 10-byte file built by
addFiles and uploadFileStart, then deliver the normal final progress event
with loaded = total = 10. The record reaches progress 100 while its status
is still uploading, so progress 100 does not imply status success. -/
theorem progress_100_while_uploading :
    (fireProgress demoStarted demoRef 10 (some 10)).queue.map
        (fun r => (r.progress, r.status)) = [(100, Status.uploading)]
    ∧ Status.uploading ≠ Status.success := by decide

/-- Claim C2 (amended): one direction of the claimed invariant does hold:
immediately after the terminal success event the referenced record has
status success and progress 100, and the global uploading flag is false.
The converse fails (see the counterexample): a progress event with
loaded = total sets progress 100 while the status is still uploading, and
a subsequent error event then leaves an error record with progress 100. -/
theorem response_sets_success_and_100 (s : State) (ref : UploadedFile) :
    (fireResponse s ref).isUploading = false
    ∧ ∀ r ∈ (fireResponse s ref).queue, r.oid = ref.oid →
        r.status = Status.success ∧ r.progress = 100 := by
  constructor
  · rfl
  · intro r hr hoid
    simp only [fireResponse, showAlert, updateById, List.mem_map] at hr
    obtain ⟨a, ha, rfl⟩ := hr
    by_cases h : a.oid = ref.oid
    · simp [h]
    · simp only [if_neg h] at hoid ⊢
      exact absurd hoid h

theorem response_witness :
    succRec ∈ (fireResponse demoStarted demoRef).queue
    ∧ succRec.oid = demoRef.oid
    ∧ succRec.status = Status.success ∧ succRec.progress = 100
    ∧ (fireResponse demoStarted demoRef).isUploading = false :=
  ⟨by decide, by decide,
    ((response_sets_success_and_100 demoStarted demoRef).2 succRec
      (by decide) (by decide)).1,
    ((response_sets_success_and_100 demoStarted demoRef).2 succRec
      (by decide) (by decide)).2,
    (response_sets_success_and_100 demoStarted demoRef).1⟩

/-- Claim C4 counterexample: the transport supplies the present but empty
message, yet the record ends with the fallback text instead of the supplied
message, because the JS or-else treats the empty string as falsy. -/
theorem empty_message_not_kept :
    (fireError demoStarted demoRef (some (""))).queue.map (fun r => r.error) =
        [some ("Upload failed")]
    ∧ some ("Upload failed") ≠ some (("") : String) := by decide

/-- Claim C4 (amended): on a transport error event the referenced record
gets status error and the resolved message, the global flag drops, and an
error alert names the file and that message; the resolved message is the
transport message when it is present and nonempty, and the literal fallback
when the message is absent or empty. -/
theorem error_handler_spec (s : State) (ref : UploadedFile) (msg : Option String) :
    (fireError s ref msg).isUploading = false
    ∧ (fireError s ref msg).alertMessage =
        "Failed to upload " ++ ref.file.name ++ ": " ++ jsOrString msg ("Upload failed")
    ∧ (fireError s ref msg).alertType = "alert-error"
    ∧ (∀ r ∈ (fireError s ref msg).queue, r.oid = ref.oid →
        r.status = Status.error ∧ r.error = some (jsOrString msg ("Upload failed")))
    ∧ (∀ m : String, m ≠ "" → jsOrString (some m) ("Upload failed") = m)
    ∧ jsOrString none ("Upload failed") = "Upload failed"
    ∧ jsOrString (some ("")) ("Upload failed") = "Upload failed" := by
  refine ⟨rfl, rfl, rfl, ?_, ?_, rfl, rfl⟩
  · intro r hr hoid
    simp only [fireError, showAlert, updateById, List.mem_map] at hr
    obtain ⟨a, ha, rfl⟩ := hr
    by_cases h : a.oid = ref.oid
    · simp [h]
    · simp only [if_neg h] at hoid ⊢
      exact absurd hoid h
  · intro m hm
    simp [jsOrString, hm]

theorem error_handler_witness :
    errRec ∈ (fireError demoStarted demoRef none).queue
    ∧ errRec.oid = demoRef.oid
    ∧ errRec.status = Status.error
    ∧ errRec.error = some (jsOrString none ("Upload failed"))
    ∧ (fireError demoStarted demoRef none).isUploading = false
    ∧ (fireError demoStarted demoRef none).alertMessage =
        "Failed to upload " ++ demoRef.file.name ++ ": "
          ++ jsOrString none ("Upload failed") :=
  ⟨by decide, by decide,
    ((error_handler_spec demoStarted demoRef none).2.2.2.1 errRec
      (by decide) (by decide)).1,
    ((error_handler_spec demoStarted demoRef none).2.2.2.1 errRec
      (by decide) (by decide)).2,
    (error_handler_spec demoStarted demoRef none).1,
    (error_handler_spec demoStarted demoRef none).2.1⟩

/-- Claim C5 counterexample: an alert shown at time 0 is superseded at time
3000; the claim says the superseding alert stays visible until 8000, but at
time 5000 the uncancelled timer of the first alert fires and clears it. -/
theorem superseding_alert_cleared_early :
    alertSecond.alertMessage = "second message"
    ∧ (advanceTo alertSecond 5000).alertMessage = ""
    ∧ (advanceTo alertSecond 5000).alertType = ""
    ∧ (advanceTo alertSecond 5000).now = 5000
    ∧ 5000 < 3000 + 5000 := by decide

/-- Claim C5 (amended): showAlert displays the message, schedules one clear
timer 5000 ms ahead and cancels no earlier timer; once the clock reaches any
outstanding timer the alert display is cleared, so an alert set at T is
cleared by T plus 5000 at the latest, and a superseding alert can be cleared
earlier, at the previous alert's deadline, rather than keeping its own full
5000 ms schedule. Before every outstanding timer the display is kept. -/
theorem showAlert_timer_spec (s : State) :
    (∀ m k, (showAlert s m k).timers = s.timers ++ [s.now + 5000]
      ∧ (showAlert s m k).alertMessage = m
      ∧ (showAlert s m k).alertType = "alert-" ++ k.str)
    ∧ (∀ t, (∃ ft ∈ s.timers, ft ≤ t) →
        (advanceTo s t).alertMessage = "" ∧ (advanceTo s t).alertType = "")
    ∧ (∀ t, (∀ ft ∈ s.timers, t < ft) →
        (advanceTo s t).alertMessage = s.alertMessage
        ∧ (advanceTo s t).alertType = s.alertType) := by
  refine ⟨fun m k => ⟨rfl, rfl, rfl⟩, ?_, ?_⟩
  · rintro t ⟨ft, hmem, hle⟩
    have hany : s.timers.any (fun ft => decide (ft ≤ t)) = true := by
      simp only [List.any_eq_true]
      exact ⟨ft, hmem, by simpa using hle⟩
    simp [advanceTo, hany]
  · intro t hall
    have hany : s.timers.any (fun ft => decide (ft ≤ t)) = false := by
      simp only [List.any_eq_false]
      intro ft hmem
      simpa using Nat.not_le.mpr (hall ft hmem)
    simp [advanceTo, hany]

theorem showAlert_timer_witness :
    (∃ ft ∈ alertFirst.timers, ft ≤ 5000)
    ∧ (advanceTo alertFirst 5000).alertMessage = ""
    ∧ (advanceTo alertFirst 5000).alertType = "" :=
  ⟨⟨5000, by decide, by decide⟩,
    (showAlert_timer_spec alertFirst).2.1 5000 ⟨5000, by decide, by decide⟩⟩

/-- Claim C6: on an in-bounds record that is already uploading, uploadFile
returns before doing anything: the whole state is unchanged and no request
is issued; and on an in-bounds record that is not uploading, the first call
issues a request and a second immediate call on the resulting state is a
no-op, so two rapid calls submit exactly one request. -/
theorem uploadFile_guard (s : State) (i : Nat) (h : i < s.queue.length) :
    ((s.queue.get ⟨i, h⟩).status = Status.uploading →
        uploadFileStart s (i : Int) = some (s, false))
    ∧ ((s.queue.get ⟨i, h⟩).status ≠ Status.uploading →
        ∃ s', uploadFileStart s (i : Int) = some (s', true)
          ∧ uploadFileStart s' (i : Int) = some (s', false)) := by
  have hc : 0 ≤ (i : Int) ∧ ((i : Int)).toNat < s.queue.length := by
    constructor
    · exact Int.natCast_nonneg i
    · simpa using h
  constructor
  · intro hup
    unfold uploadFileStart
    rw [dif_pos hc]
    simp only [Int.toNat_natCast]
    rw [if_pos]
    simpa using hup
  · intro hnot
    refine ⟨{ s with
                queue := s.queue.set i
                  { s.queue.get ⟨i, h⟩ with status := Status.uploading },
                isUploading := true }, ?_, ?_⟩
    · unfold uploadFileStart
      rw [dif_pos hc]
      simp only [Int.toNat_natCast]
      rw [if_neg]
      simpa using hnot
    · have hc2 : 0 ≤ (i : Int) ∧ ((i : Int)).toNat <
          (s.queue.set i { s.queue.get ⟨i, h⟩ with status := Status.uploading }).length := by
        constructor
        · exact Int.natCast_nonneg i
        · simpa using h
      unfold uploadFileStart
      rw [dif_pos hc2]
      simp only [Int.toNat_natCast]
      rw [if_pos]
      simp [List.get_eq_getElem, List.getElem_set_self]

theorem uploadFile_guard_witness :
    demoStarted.queue.length = 1
    ∧ uploadFileStart demoStarted (0 : Int) = some (demoStarted, false)
    ∧ (∃ s', uploadFileStart demoQueued (0 : Int) = some (s', true)
        ∧ uploadFileStart s' (0 : Int) = some (s', false)) :=
  ⟨by decide,
    (uploadFile_guard demoStarted 0 (by decide)).1 (by decide),
    (uploadFile_guard demoQueued 0 (by decide)).2 (by decide)⟩

/-- Claim C8: a progress event stores
Math.round(100 * loaded / (total or-else 1)) into the referenced record,
and the code divisor (total or-else 1) coincides with max(total, 1): it is
1 when total is absent or 0, and total itself when total is at least 1. -/
theorem progress_formula (s : State) (ref : UploadedFile) (loaded : Nat)
    (total : Option Nat) :
    fireProgress s ref loaded total =
      { s with queue := (updateById s.queue ref.oid
          (fun r => { r with
            progress := jsRound (100 * loaded) (max (total.getD 0) 1) })) }
    ∧ jsOrNat none 1 = 1 ∧ jsOrNat (some 0) 1 = 1
    ∧ (∀ t : Nat, 1 ≤ t → jsOrNat (some t) 1 = t) := by
  have hdiv : jsOrNat total 1 = max (total.getD 0) 1 := by
    cases total with
    | none => rfl
    | some n =>
        simp only [jsOrNat, Option.getD_some]
        split <;> omega
  refine ⟨?_, rfl, rfl, ?_⟩
  · unfold fireProgress
    rw [hdiv]
  · intro t ht
    simp only [jsOrNat]
    split <;> omega

theorem progress_formula_witness :
    (1 : Nat) ≤ 10 ∧ jsOrNat (some 10) 1 = 10
    ∧ fireProgress demoStarted demoRef 5 (some 10) =
        { demoStarted with queue := (updateById demoStarted.queue demoRef.oid
            (fun r => { r with
              progress := jsRound (100 * 5) (max ((some 10).getD 0) 1) })) } :=
  ⟨by decide,
    (progress_formula demoStarted demoRef 5 (some 10)).2.2.2 10 (by decide),
    (progress_formula demoStarted demoRef 5 (some 10)).1⟩

/-- Claim C10: on an index with no record (negative, or at least the queue
length) uploadFile faults immediately by reading the status field of an
absent record, modelled by the none result; it is not a no-op, so the
guarantees about uploadFile carry an in-bounds precondition. -/
theorem uploadFile_out_of_bounds (s : State) (index : Int)
    (h : index < 0 ∨ (s.queue.length : Int) ≤ index) :
    uploadFileStart s index = none := by
  unfold uploadFileStart
  rw [dif_neg]
  rintro ⟨h0, hlt⟩
  rcases h with h | h <;> omega

theorem uploadFile_out_of_bounds_witness :
    (((-1) : Int) < 0 ∨ (demoQueued.queue.length : Int) ≤ (-1))
    ∧ uploadFileStart demoQueued ((-1) : Int) = none :=
  ⟨Or.inl (by decide),
    uploadFile_out_of_bounds demoQueued ((-1) : Int) (Or.inl (by decide))⟩

theorem updateById_not_mem {q : List UploadedFile} {j : Nat}
    (f : UploadedFile → UploadedFile) (h : ∀ r ∈ q, r.oid ≠ j) :
    updateById q j f = q := by
  unfold updateById
  rw [List.map_congr_left (fun r hr => if_neg (h r hr))]
  exact List.map_id' q

/-- Claim C7: removeFile drops the record at an in-bounds index from the
queue unconditionally, and any transport callback that later fires through
the removed record reference leaves the remaining queue entirely unchanged:
its records, their order and their identities. The callbacks are total
functions of the state, so no callback throws. The identity hypothesis
reflects that distinct JS record objects are distinct references. -/
theorem removeFile_detached (s : State) (i : Nat) (h : i < s.queue.length)
    (hnd : (s.queue.map (fun r => r.oid)).Nodup) :
    (removeFile s i).queue = s.queue.eraseIdx i
    ∧ (∀ loaded total,
        (fireProgress (removeFile s i) (s.queue.get ⟨i, h⟩) loaded total).queue =
          (removeFile s i).queue)
    ∧ (fireResponse (removeFile s i) (s.queue.get ⟨i, h⟩)).queue =
        (removeFile s i).queue
    ∧ (∀ msg, (fireError (removeFile s i) (s.queue.get ⟨i, h⟩) msg).queue =
        (removeFile s i).queue) := by
  have hnot : ∀ r ∈ s.queue.eraseIdx i, r.oid ≠ (s.queue.get ⟨i, h⟩).oid := by
    intro r hr heq
    rw [List.mem_eraseIdx_iff_getElem] at hr
    obtain ⟨k, hlt, hne, rfl⟩ := hr
    have hb1 : k < (s.queue.map (fun r => r.oid)).length := by simpa using hlt
    have hb2 : i < (s.queue.map (fun r => r.oid)).length := by simpa using h
    have hmapeq : (s.queue.map (fun r => r.oid))[k] =
        (s.queue.map (fun r => r.oid))[i] := by
      simpa using heq
    exact hne (hnd.getElem_inj_iff.mp hmapeq)
  refine ⟨rfl, ?_, ?_, ?_⟩
  · intro loaded total
    simp only [fireProgress, removeFile]
    exact updateById_not_mem _ hnot
  · simp only [fireResponse, showAlert, removeFile]
    exact updateById_not_mem _ hnot
  · intro msg
    simp only [fireError, showAlert, removeFile]
    exact updateById_not_mem _ hnot

theorem removeFile_detached_witness :
    0 < demoTwo.queue.length
    ∧ (demoTwo.queue.map (fun r => r.oid)).Nodup
    ∧ (removeFile demoTwo 0).queue = demoTwo.queue.eraseIdx 0
    ∧ (fireResponse (removeFile demoTwo 0)
        (demoTwo.queue.get ⟨0, by decide⟩)).queue = (removeFile demoTwo 0).queue :=
  ⟨by decide, by decide,
    (removeFile_detached demoTwo 0 (by decide) (by decide)).1,
    (removeFile_detached demoTwo 0 (by decide) (by decide)).2.2.1⟩

theorem set_eq_updateById {q : List UploadedFile} {i j : Nat}
    (f : UploadedFile → UploadedFile) (hi : i < q.length)
    (hoid : (q.get ⟨i, hi⟩).oid = j)
    (hnd : (q.map (fun r => r.oid)).Nodup) :
    q.set i (f (q.get ⟨i, hi⟩)) = updateById q j f := by
  apply List.ext_getElem
  · simp [updateById]
  · intro k h1 h2
    rw [List.getElem_set]
    simp only [updateById, List.getElem_map]
    by_cases hk : i = k
    · subst hk
      rw [if_pos rfl, if_pos (by simpa using hoid)]
      simp
    · rw [if_neg hk, if_neg]
      intro hoidk
      apply hk
      have hb1 : i < (List.map (fun r => r.oid) q).length := by simpa using hi
      have hb2 : k < (List.map (fun r => r.oid) q).length := by
        simp only [List.length_map]
        simpa using h1
      have heq : (List.map (fun r => r.oid) q)[i] = (List.map (fun r => r.oid) q)[k] := by
        rw [List.getElem_map, List.getElem_map, hoidk]
        simpa using hoid
      exact hnd.getElem_inj_iff.mp heq

theorem updateById_map_oid (q : List UploadedFile) (j : Nat) :
    ((updateById q j (fun r => { r with status := Status.uploading })).map
        (fun r => r.oid)) = q.map (fun r => r.oid) := by
  unfold updateById
  rw [List.map_map]
  apply List.map_congr_left
  intro r hr
  by_cases h : r.oid = j <;> simp [h]

theorem uploadFileStart_by_id (s : State) (j : Nat)
    (hnd : (s.queue.map (fun r => r.oid)).Nodup)
    (r : UploadedFile) (hr : r ∈ s.queue) (hoid : r.oid = j)
    (hpend : r.status = Status.pending) :
    uploadFileStart s (jsFindIndexRef s.queue j) =
      some ({ s with
                queue := (updateById s.queue j
                  (fun x => { x with status := Status.uploading })),
                isUploading := true }, true) := by
  have hex : ∃ x, x ∈ s.queue ∧ (fun x => decide (x.oid = j)) x = true :=
    ⟨r, hr, by simpa using hoid⟩
  have hfind := List.findIdx?_eq_some_of_exists hex
  rw [List.findIdx?_eq_some_iff_getElem] at hfind
  obtain ⟨hi, hp, -⟩ := hfind
  set i := s.queue.findIdx (fun x => decide (x.oid = j)) with hidef
  have hgetoid : (s.queue.get ⟨i, hi⟩).oid = j := by
    simpa using hp
  have hget : s.queue.get ⟨i, hi⟩ = r := by
    obtain ⟨k, hk, hqk⟩ := List.getElem_of_mem hr
    have hb1 : i < (List.map (fun x => x.oid) s.queue).length := by simpa using hi
    have hb2 : k < (List.map (fun x => x.oid) s.queue).length := by simpa using hk
    have heq : (List.map (fun x => x.oid) s.queue)[i] =
        (List.map (fun x => x.oid) s.queue)[k] := by
      rw [List.getElem_map, List.getElem_map, hqk, hoid]
      simpa using hgetoid
    have hik : i = k := hnd.getElem_inj_iff.mp heq
    simp only [List.get_eq_getElem, hik, hqk]
  have hjf : jsFindIndexRef s.queue j = (i : Int) := by
    unfold jsFindIndexRef
    rw [List.findIdx?_eq_some_of_exists hex]
  rw [hjf]
  have hc : 0 ≤ (i : Int) ∧ ((i : Int)).toNat < s.queue.length :=
    ⟨Int.natCast_nonneg i, by simpa using hi⟩
  unfold uploadFileStart
  rw [dif_pos hc]
  simp only [Int.toNat_natCast]
  rw [if_neg (by rw [hget, hpend]; nofun)]
  rw [set_eq_updateById (fun x => { x with status := Status.uploading }) hi hgetoid hnd]

theorem foldlM_uploadStep (js : List Nat) :
    ∀ (s : State) (n : Nat),
    (s.queue.map (fun r => r.oid)).Nodup → js.Nodup →
    (∀ j ∈ js, ∃ r ∈ s.queue, r.oid = j ∧ r.status = Status.pending) →
    js.foldlM uploadStep (s, n) = some
      ({ s with
          queue := (s.queue.map (fun r =>
            if r.oid ∈ js then { r with status := Status.uploading } else r)),
          isUploading := (s.isUploading || !js.isEmpty) }, n + js.length) := by
  induction js with
  | nil =>
      intro s n hnd hjsnd hex
      simp
  | cons j rest ih =>
      intro s n hnd hjsnd hex
      obtain ⟨r, hr, hoid, hpend⟩ := hex j (List.mem_cons_self j rest)
      have hnotin : j ∉ rest := (List.nodup_cons.mp hjsnd).1
      rw [List.foldlM_cons]
      have hstep : uploadStep (s, n) j = some
          ({ s with
              queue := (updateById s.queue j
                (fun x => { x with status := Status.uploading })),
              isUploading := true }, n + 1) := by
        unfold uploadStep
        rw [uploadFileStart_by_id s j hnd r hr hoid hpend]
        rfl
      rw [hstep]
      show List.foldlM uploadStep
          ({ s with
              queue := (updateById s.queue j
                (fun x => { x with status := Status.uploading })),
              isUploading := true }, n + 1) rest = _
      rw [ih _ (n + 1) (by rw [updateById_map_oid]; exact hnd)
            (List.nodup_cons.mp hjsnd).2 ?hex1]
      case hex1 =>
        intro j' hj'
        obtain ⟨r', hr', hoid', hpend'⟩ := hex j' (List.mem_cons_of_mem j hj')
        have hne : r'.oid ≠ j := by
          rw [hoid']
          intro hh
          exact hnotin (hh ▸ hj')
        refine ⟨r', ?_, hoid', hpend'⟩
        exact List.mem_map.mpr ⟨r', hr', by rw [if_neg hne]⟩
      have hq : (updateById s.queue j
            (fun x => { x with status := Status.uploading })).map
              (fun r => if r.oid ∈ rest then { r with status := Status.uploading } else r)
          = s.queue.map (fun r =>
              if r.oid ∈ j :: rest then { r with status := Status.uploading } else r) := by
        unfold updateById
        rw [List.map_map]
        apply List.map_congr_left
        intro r0 hr0
        by_cases h0 : r0.oid = j
        · simp [Function.comp, h0, hnotin]
        · simp [Function.comp, h0, List.mem_cons]
      simp only [Option.some.injEq, Prod.mk.injEq]
      constructor
      · rw [← hq]
        simp [Bool.or_true]
      · simp only [List.length_cons]
        omega

theorem filter_isEmpty_eq_not_any {α : Type} (l : List α) (p : α → Bool) :
    (l.filter p).isEmpty = !l.any p := by
  induction l with
  | nil => rfl
  | cons x xs ihx =>
      rw [List.filter_cons, List.any_cons]
      cases hpx : p x <;> simp [hpx, ihx]

/-- Claim C9: with distinct record identities (which fresh allocation in
addFiles guarantees), uploadAllFiles starts exactly the records that were
pending when it snapshotted the queue: each of them becomes uploading at
its own queue position, every non-pending record is untouched, queue
length and order are preserved, and the number of submitted requests is
the number of snapshotted pending records. -/
theorem uploadAllFiles_spec (s : State)
    (hnd : (s.queue.map (fun r => r.oid)).Nodup) :
    uploadAllFiles s = some
      ({ s with
          queue := (s.queue.map (fun r =>
            if r.status = Status.pending
            then { r with status := Status.uploading } else r)),
          isUploading := (s.isUploading
            || s.queue.any (fun r => decide (r.status = Status.pending))) },
       (s.queue.filter (fun f => decide (f.status = Status.pending))).length) := by
  unfold uploadAllFiles
  have hsub : List.Sublist
      ((s.queue.filter (fun f => decide (f.status = Status.pending))).map
        (fun f => f.oid))
      (s.queue.map (fun r => r.oid)) :=
    List.Sublist.map _ (List.filter_sublist s.queue)
  have hjsnd := hsub.nodup hnd
  have hex : ∀ j ∈ (s.queue.filter
        (fun f => decide (f.status = Status.pending))).map (fun f => f.oid),
      ∃ r ∈ s.queue, r.oid = j ∧ r.status = Status.pending := by
    intro j hj
    obtain ⟨r, hrf, hoid⟩ := List.mem_map.mp hj
    have hmf := List.mem_filter.mp hrf
    exact ⟨r, hmf.1, hoid, by simpa using hmf.2⟩
  rw [foldlM_uploadStep _ s 0 hnd hjsnd hex]
  have hq : s.queue.map (fun r =>
        if r.oid ∈ (s.queue.filter
            (fun f => decide (f.status = Status.pending))).map (fun f => f.oid)
        then { r with status := Status.uploading } else r)
      = s.queue.map (fun r =>
          if r.status = Status.pending
          then { r with status := Status.uploading } else r) := by
    apply List.map_congr_left
    intro r hr
    by_cases hp : r.status = Status.pending
    · rw [if_pos hp, if_pos]
      exact List.mem_map.mpr
        ⟨r, List.mem_filter.mpr ⟨hr, by simpa using hp⟩, rfl⟩
    · rw [if_neg hp, if_neg]
      intro hin
      obtain ⟨r', hr'f, hoid'⟩ := List.mem_map.mp hin
      have h2 := List.mem_filter.mp hr'f
      have hrr : r' = r := List.inj_on_of_nodup_map hnd h2.1 hr hoid'
      exact hp (hrr ▸ (by simpa using h2.2))
  have hemp : ((s.queue.filter
        (fun f => decide (f.status = Status.pending))).map
          (fun f => f.oid)).isEmpty
      = !(s.queue.any (fun r => decide (r.status = Status.pending))) := by
    rw [show ∀ m : List UploadedFile, (m.map (fun f => f.oid)).isEmpty = m.isEmpty
          from fun m => by cases m <;> rfl]
    exact filter_isEmpty_eq_not_any s.queue _
  rw [hq, hemp]
  simp

theorem uploadAllFiles_spec_witness :
    (demoMixed.queue.map (fun r => r.oid)).Nodup
    ∧ uploadAllFiles demoMixed = some
      ({ demoMixed with
          queue := (demoMixed.queue.map (fun r =>
            if r.status = Status.pending
            then { r with status := Status.uploading } else r)),
          isUploading := (demoMixed.isUploading
            || demoMixed.queue.any (fun r => decide (r.status = Status.pending))) },
       (demoMixed.queue.filter
          (fun f => decide (f.status = Status.pending))).length) :=
  ⟨by decide, uploadAllFiles_spec demoMixed (by decide)⟩

example : isValidFile { name := "A.XML", size := 209715200 } = true := by decide

example : isValidFile { name := "a.xml", size := 209715201 } = false := by decide

example : isValidFile { name := "b.exe", size := 10 } = false := by decide

